import Mathlib

/-!
Verification development for the webhdfs client library.

The definitions below are a shallow embedding of the library's request
execution pipeline: URI and query percent-encoding (`uri_tools.rs`), the
operation model (`op.rs`), query assembly (`async_client.rs`), the redirect
driver (`rest_client.rs`), the HA failover state machine (`async_client.rs`),
and the synchronous file handle `read`/`seek` logic (`sync_client.rs`).
Bytes are modelled as `Nat` (values < 256), Rust `i64` as `Int` with explicit
two's-complement bounds, byte buffers as `List Nat`.
-/

deriving instance DecidableEq for Except

namespace WebHdfs

/-- ASCII bytes of a Lean string literal (used for the ASCII string constants
appearing in the source). -/
def asciiBytes (s : String) : List Nat := s.data.map Char.toNat

/-! ## uri_tools.rs : percent encoding -/

/-- Bitmap of RFC 3986 unreserved characters, from
`UriEncodingIterator::UNRESERVED_BM`. -/
def UNRESERVED_BM : List Nat := [0x3FF600000000000, 0x47FFFFFE87FFFFFE, 0, 0]

/-- Mirrors `UriEncodingIterator::is_unreserved`:
`UNRESERVED_BM[ch / 64] & (1 << (ch % 64)) != 0`. -/
def is_unreserved (ch : Nat) : Bool :=
  (UNRESERVED_BM.getD (ch / 64) 0) &&& (1 <<< (ch % 64)) != 0

/-- Mirrors `UriEncodingIterator::hex_from_digit`. -/
def hex_from_digit (d : Nat) : Nat :=
  if d < 10 then 48 + d else 65 + d - 10

/-- Output of `UriEncodingIterator` over a byte sequence, collected into a
list. A byte is emitted verbatim when it is unreserved, or when it is a slash
and `omit_slash` is set; otherwise `%`, then the two hex digits of the byte,
are emitted (states `Null`/`C2`/`C1` of the iterator). -/
def uriEncode (omit_slash : Bool) : List Nat → List Nat
  | [] => []
  | b :: rest =>
    if !(is_unreserved b) && !(b == 47 && omit_slash) then
      37 :: hex_from_digit ((b >>> 4) &&& 0x0f) :: hex_from_digit (b &&& 0x0f)
        :: uriEncode omit_slash rest
    else
      b :: uriEncode omit_slash rest

/-- Value of an ASCII hex digit. -/
def hexVal (c : Nat) : Nat :=
  if 48 ≤ c && c ≤ 57 then c - 48
  else if 65 ≤ c && c ≤ 70 then c - 65 + 10
  else if 97 ≤ c && c ≤ 102 then c - 97 + 10
  else 0

/-- Modelled from the spec: the URL-decoder referenced by the percent-encoding
round-trip property is not part of `src/` (the library ships no decoder); this
is standard percent-decoding, `%XY` becomes the byte with hex value `XY` and
every other byte is passed through. -/
def urlDecode : List Nat → List Nat
  | [] => []
  | 37 :: h :: l :: rest => (hexVal h * 16 + hexVal l) :: urlDecode rest
  | b :: rest => b :: urlDecode rest

/-! ## Decimal rendering (Rust `format!` over integers) -/

/-- Decimal digits of a natural number, as ASCII bytes (Rust
`format!` for an unsigned integer). -/
def natDec (n : Nat) : List Nat := (Nat.toDigits 10 n).map Char.toNat

/-- Decimal rendering of a signed integer (Rust `format!` for `i64`). -/
def intDec (i : Int) : List Nat :=
  if i < 0 then 45 :: natDec i.natAbs else natDec i.toNat

/-! ## uri_tools.rs : QueryEncoder and PathEncoder -/

/-- Mirrors `QueryEncoder`: accumulated `path?k=v&…` bytes plus the flag
telling whether `?` has already been emitted. -/
structure QueryEncoder where
  path_and_query : List Nat
  qm_added : Bool
deriving DecidableEq, Repr

/-- Mirrors `QueryEncoder::pfx`: emit `?` the first time, `&` afterwards. -/
def QueryEncoder.pfx (q : QueryEncoder) : QueryEncoder :=
  if !q.qm_added then
    { path_and_query := q.path_and_query ++ [63], qm_added := true }
  else
    { q with path_and_query := q.path_and_query ++ [38] }

/-- Common shape of the four `add_*` setters: prefix separator, then the
rendered `key=value` piece appended to the buffer. -/
def QueryEncoder.addP (q : QueryEncoder) (piece : List Nat) : QueryEncoder :=
  let q1 := q.pfx
  { q1 with path_and_query := q1.path_and_query ++ piece }

/-- Mirrors `QueryEncoder::add_pv` (string value, encoded). -/
def QueryEncoder.add_pv (q : QueryEncoder) (p v : List Nat) : QueryEncoder :=
  q.addP (uriEncode false p ++ 61 :: uriEncode false v)

/-- Mirrors `QueryEncoder::add_pi` (64-bit int value). -/
def QueryEncoder.add_pi (q : QueryEncoder) (p : List Nat) (v : Int) : QueryEncoder :=
  q.addP (uriEncode false p ++ 61 :: intDec v)

/-- Mirrors `QueryEncoder::add_pb` (boolean value). -/
def QueryEncoder.add_pb (q : QueryEncoder) (p : List Nat) (v : Bool) : QueryEncoder :=
  q.addP (uriEncode false p ++ 61 :: asciiBytes (if v then "true" else "false"))

/-- Mirrors `QueryEncoder::add_po` (u16 hdfs permission, rendered as
`format!` of `(v & 0o0700) >> 6`, `(v & 0o0070) >> 3`, `v & 0o0007`). -/
def QueryEncoder.add_po (q : QueryEncoder) (p : List Nat) (v : Nat) : QueryEncoder :=
  q.addP (uriEncode false p ++ 61 ::
    (natDec ((v &&& 0o0700) >>> 6) ++ natDec ((v &&& 0o0070) >>> 3) ++ natDec (v &&& 0o0007)))

/-- Mirrors `QueryEncoder::result`. -/
def QueryEncoder.result (q : QueryEncoder) : List Nat := q.path_and_query

/-- Mirrors `PathEncoder`. -/
structure PathEncoder where
  path_and_query : List Nat
deriving DecidableEq, Repr

/-- Mirrors `PathEncoder::empty`. -/
def PathEncoder.empty : PathEncoder := ⟨[]⟩

/-- Mirrors `PathEncoder::extend`: normalize the junction (`//` collapses to
one slash, two non-slashes get a slash inserted), then append the path-mode
encoding of the segment. -/
def PathEncoder.extend (pe : PathEncoder) (path_seg : List Nat) : PathEncoder :=
  let base :=
    match pe.path_and_query.getLast?, path_seg.head? with
    | some 47, some 47 => pe.path_and_query.dropLast
    | some c1, some c2 =>
      if c1 ≠ 47 ∧ c2 ≠ 47 then pe.path_and_query ++ [47] else pe.path_and_query
    | _, _ => pe.path_and_query
  ⟨base ++ uriEncode true path_seg⟩

/-- Mirrors `PathEncoder::new`. -/
def PathEncoder.new (base_path : List Nat) : PathEncoder :=
  PathEncoder.empty.extend base_path

/-- Mirrors `PathEncoder::query`. -/
def PathEncoder.query (pe : PathEncoder) : QueryEncoder :=
  { path_and_query := pe.path_and_query, qm_added := false }

/-! ## op.rs : operation model -/

/-- Mirrors enum `Op`. -/
inductive Op where
  | LISTSTATUS | GETFILESTATUS | OPEN | CREATE | APPEND
  | CONCAT | MKDIRS | RENAME | CREATESYMLINK | DELETE
deriving DecidableEq, Repr

/-- Mirrors `Op::op_string`. -/
def Op.op_string : Op → String
  | .LISTSTATUS => "LISTSTATUS"
  | .GETFILESTATUS => "GETFILESTATUS"
  | .OPEN => "OPEN"
  | .CREATE => "CREATE"
  | .APPEND => "APPEND"
  | .CONCAT => "CONCAT"
  | .MKDIRS => "MKDIRS"
  | .RENAME => "RENAME"
  | .CREATESYMLINK => "CREATESYMLINK"
  | .DELETE => "DELETE"

/-- Mirrors enum `OpArg`. Strings are carried as byte lists; the `i64`/`i32`/
`i16` payloads are `Int`, the `u16` permission is `Nat`. -/
inductive OpArg where
  | Offset (v : Int)
  | Length (v : Int)
  | BufferSize (v : Int)
  | Overwrite (v : Bool)
  | Blocksize (v : Int)
  | Replication (v : Int)
  | Permission (v : Nat)
  | Sources (v : List (List Nat))
  | Destination (v : List Nat)
  | CreateParent (v : Bool)
  | Recursive (v : Bool)
deriving DecidableEq, Repr

/-- Comma-join of `v.join(",")` in `OpArg::Sources`. -/
def commaJoin : List (List Nat) → List Nat
  | [] => []
  | [s] => s
  | s :: rest => s ++ 44 :: commaJoin rest

/-- Mirrors `OpArg::add_to_url`. -/
def OpArg.add_to_url (a : OpArg) (qe : QueryEncoder) : QueryEncoder :=
  match a with
  | .Offset v => qe.add_pi (asciiBytes "offset") v
  | .Length v => qe.add_pi (asciiBytes "length") v
  | .BufferSize v => qe.add_pi (asciiBytes "buffersize") v
  | .Overwrite v => qe.add_pb (asciiBytes "overwrite") v
  | .Blocksize v => qe.add_pi (asciiBytes "blocksize") v
  | .Replication v => qe.add_pi (asciiBytes "replication") v
  | .Permission v => qe.add_po (asciiBytes "permission") v
  | .Sources v => qe.add_pv (asciiBytes "sources") (commaJoin v)
  | .Destination v => qe.add_pv (asciiBytes "destination") v
  | .CreateParent v => qe.add_pb (asciiBytes "createParent") v
  | .Recursive v => qe.add_pb (asciiBytes "recursive") v

/-! ## async_client.rs : client configuration and query assembly -/

/-- Mirrors the configuration fields of `HdfsClient` that determine URI and
query assembly and failover (`entrypoint`, `alt_entrypoint`, identity
parameters). Entrypoints are kept as their rendered `scheme://authority`
prefix; the NAT map, timeout and TLS settings play no role in the claims
below and are omitted. -/
structure HdfsClient where
  entrypoint : String
  alt_entrypoint : Option String := none
  user_name : Option (List Nat) := none
  doas : Option (List Nat) := none
  dt : Option (List Nat) := none
deriving DecidableEq, Repr

/-- Mirrors `HdfsClient::SVC_MOUNT_POINT`. -/
def SVC_MOUNT_POINT : List Nat := asciiBytes "/webhdfs/v1"

/-- Mirrors `HdfsClient::path_and_query`. -/
def HdfsClient.path_and_query (c : HdfsClient) (file_path : List Nat)
    (op : Op) (args : List OpArg) : List Nat :=
  let q := ((PathEncoder.new SVC_MOUNT_POINT).extend file_path).query
  let q := match c.user_name with
           | some user => q.add_pv (asciiBytes "user.name") user
           | none => q
  let q := match c.doas with
           | some doas => q.add_pv (asciiBytes "doas") doas
           | none => q
  let q := match c.dt with
           | some dt => q.add_pv (asciiBytes "delegation") dt
           | none => q
  let q := q.add_pv (asciiBytes "op") (asciiBytes op.op_string)
  let q := args.foldl (fun q s => s.add_to_url q) q
  q.result

/-- Request URL assembled by `HdfsClient::uri` on the primary entrypoint:
the entrypoint's scheme and authority followed by the path-and-query bytes. -/
def HdfsClient.requestUrl (c : HdfsClient) (file_path : List Nat)
    (op : Op) (args : List OpArg) : List Nat :=
  asciiBytes c.entrypoint ++ c.path_and_query file_path op args

/-! ## error.rs : error model -/

/-- Mirrors the variants of enum `Cause` that the pipeline logic inspects
(the transport/decoder payloads are collapsed to a message string). -/
inductive Cause where
  | none
  | generic (msg : String)
  | remoteException (exception java_class_name message : String)
  | httpRedirect (status : Nat) (location : String)
  | timeout
deriving DecidableEq, Repr

/-- Mirrors struct `Error`. -/
structure Error where
  msg : Option String
  cause : Cause
deriving DecidableEq, Repr

/-- Mirrors `Error::app_c`. -/
def Error.app_c (msg : String) : Error := ⟨some msg, .none⟩

/-- Mirrors `Error::from_http_redirect`. -/
def Error.from_http_redirect (status : Nat) (location : String) : Error :=
  ⟨none, .httpRedirect status location⟩

/-- Mirrors `Error::to_http_redirect`. -/
def Error.to_http_redirect (e : Error) : Except Error (Nat × String) :=
  match e.cause with
  | .httpRedirect code location => .ok (code, location)
  | other => .error ⟨e.msg, other⟩

/-- Payload of a data-carrying request (`Data = Cow<[u8]>`). -/
def Data := List Nat
deriving DecidableEq, Repr

/-- Mirrors struct `ErrorD { error, data_opt }`. The struct itself is
referenced but not defined under `src/` (it is re-exported from
`rest_client`); its shape is taken from its uses in `async_client.rs` and
from the spec. -/
structure ErrorD where
  error : Error
  data_opt : Option Data
deriving DecidableEq, Repr

/-- Modelled from the spec: `ErrorD::lift` (missing from `src/`, used as
`r.map_err(ErrorD::lift)` on a plain `Result`), lifting an `Error` into an
`ErrorD` carrying no payload. -/
def ErrorD.lift (e : Error) : ErrorD := ⟨e, none⟩

/-! ## async_client.rs : HA failover state machine -/

/-- Mirrors enum `FOState`. -/
inductive FOState where
  | PRIMARY
  | ALT
deriving DecidableEq, Repr

/-- Mirrors `FOState::is_alt`. -/
def FOState.is_alt : FOState → Bool
  | .ALT => true
  | .PRIMARY => false

/-- Mirrors `FOState::next`. -/
def FOState.next : FOState → FOState
  | .ALT => .PRIMARY
  | .PRIMARY => .ALT

/-- Mirrors enum `FOAction`. -/
inductive FOAction (T D : Type) where
  | Proceed (r : Except Error T)
  | FailOver (d : D)

/-- Entrypoint selected by `HdfsClient::uri` for a failover state:
`alt_entrypoint` when the state is ALT and one is configured, otherwise
`entrypoint`. -/
def HdfsClient.ep (c : HdfsClient) (fostate : FOState) : String :=
  if fostate.is_alt then
    match c.alt_entrypoint with
    | some e => e
    | none => c.entrypoint
  else c.entrypoint

/-- Mirrors `HdfsClient::is_standby_error`. -/
def is_standby_error (e : Error) : Bool :=
  match e.cause with
  | .remoteException exception _ _ => exception == "StandbyException"
  | _ => false

/-- Mirrors `HdfsClient::failover_fsm`. -/
def failover_fsm (c : HdfsClient) (fostate : FOState)
    (result : Except Error T) : FOAction T Unit × FOState :=
  match result with
  | .error e =>
    if c.alt_entrypoint.isSome && is_standby_error e then
      (.FailOver (), fostate.next)
    else (.Proceed (.error e), fostate)
  | other => (.Proceed other, fostate)

/-- Mirrors `HdfsClient::failover_fsm_d`. -/
def failover_fsm_d (c : HdfsClient) (fostate : FOState)
    (result : Except ErrorD T) : FOAction T Data × FOState :=
  match result with
  | .error ⟨error, some data⟩ =>
    if c.alt_entrypoint.isSome && is_standby_error error then
      (.FailOver data, fostate.next)
    else (.Proceed (.error error), fostate)
  | .error ⟨error, none⟩ => (.Proceed (.error error), fostate)
  | .ok v => (.Proceed (.ok v), fostate)

/-- Mirrors the `with_failover!` macro (the 2/3-argument form used by every
non-data operation): run the first attempt against the current state, feed
the outcome to `failover_fsm`, and on `FailOver` run the same request once
more against the flipped state. The result additionally records the
entrypoints targeted, in order, so that request counts are observable. -/
def runWithFailover (c : HdfsClient) (fostate : FOState)
    (attempt : FOState → Except Error T) :
    Except Error T × FOState × List String :=
  let r := attempt fostate
  match failover_fsm c fostate r with
  | (.Proceed r, fostate1) => (r, fostate1, [c.ep fostate])
  | (.FailOver _, fostate1) =>
    let r2 := attempt fostate1
    (r2, fostate1, [c.ep fostate, c.ep fostate1])

/-- Mirrors the 4-argument form of `with_failover!` as instantiated by
`HdfsClient::data_op`: the attempt carries the request payload; a `Proceed`
outcome is lifted into `ErrorD` via `ErrorD::lift`, a `FailOver` outcome
resubmits the payload recovered from `ErrorD.data_opt`. The trace records the
entrypoint and the payload of each submission. -/
def runDataOp (c : HdfsClient) (fostate : FOState)
    (attempt : FOState → Data → Except ErrorD Unit) (data : Data) :
    Except ErrorD Unit × FOState × List (String × Data) :=
  let r := attempt fostate data
  match failover_fsm_d c fostate r with
  | (.Proceed r, fostate1) =>
    (r.mapError ErrorD.lift, fostate1, [(c.ep fostate, data)])
  | (.FailOver d, fostate1) =>
    let r2 := attempt fostate1 d
    (r2, fostate1, [(c.ep fostate, data), (c.ep fostate1, d)])

/-- Modelled from the spec: the engine side of a data operation
(`HttpyClient::post_binary` packaging its failure as `ErrorD`, which is not
under `src/`): a write failure surfaces the underlying error together with
the untransmitted payload in `data_opt` (spec §4.6 and §7). -/
def postBinaryEngine (net : FOState → Data → Except Error Unit) :
    FOState → Data → Except ErrorD Unit :=
  fun s d =>
    match net s d with
    | .ok v => .ok v
    | .error e => .error ⟨e, some d⟩

/-- State evolution of one sync-façade call (`SyncHdfsClient::foresult`
memoizes the returned `FOState` into the client). -/
def opsStep (c : HdfsClient) (s : FOState)
    (attempt : FOState → Except Error Unit) : FOState :=
  (runWithFailover c s attempt).2.1

/-- Failover state after a sequence of sync-façade operations. -/
def runOps (c : HdfsClient) (s : FOState) :
    List (FOState → Except Error Unit) → FOState
  | [] => s
  | a :: rest => runOps c (opsStep c s a) rest

/-- Mirrors `SyncHdfsClientBuilder::build`: a freshly built sync client pairs
the async client with the initial failover state `PRIMARY`. -/
def syncBuild (c : HdfsClient) : HdfsClient × FOState := (c, .PRIMARY)

/-! ## rest_client.rs : redirect driver -/

/-- HTTP response as the redirect driver observes it: the status code, the
optional `Location` header, and the body bytes. -/
structure HttpResponse where
  status : Nat
  location : Option String := none
  body : List Nat := []
deriving DecidableEq, Repr

/-- Status class test used by `res.status().is_redirection()` (3xx). -/
def statusIsRedirection (s : Nat) : Bool := 300 ≤ s && s ≤ 399

/-- Mirrors `redirect_filter`: a 3xx response becomes an `HttpRedirect` error
carrying the `Location` (or a generic error when the header is absent); any
other response is passed through unchanged as `Ok`. -/
def redirect_filter (res : HttpResponse) : Except Error HttpResponse :=
  if statusIsRedirection res.status then
    match res.location with
    | some location => .error (Error.from_http_redirect res.status location)
    | none => .error (Error.app_c "Redirect without Location header")
  else .ok res

/-- Mirrors `HttpyClient::request_with_redirect` together with its inner
`handle_redirect`: run the phase-1 request, apply `redirect_filter`; a
non-error (non-3xx) response is returned as the result; an `HttpRedirect`
error has its location parsed, NAT-translated, and handed to the phase-2
request; any other error is returned. `parseLoc` stands for the external
`http::Uri` parser applied to the `Location` value and `translate` for
`NatMapPtr::translate`; URIs are kept as strings. -/
def request_with_redirect
    (parseLoc : String → Except Error String)
    (translate : String → Except Error String)
    (uri : String)
    (rf0 rf1 : String → Except Error HttpResponse) : Except Error HttpResponse :=
  match rf0 uri with
  | .error e => .error e
  | .ok r0 =>
    match redirect_filter r0 with
    | .ok r => .ok r
    | .error e =>
      match e.to_http_redirect with
      | .ok (_code, location) =>
        match parseLoc location with
        | .ok uri1 =>
          match translate uri1 with
          | .ok uri2 => rf1 uri2
          | .error e1 => .error e1
        | .error _ =>
          .error (Error.app_c "Cannot parse location URI returned by redirect")
      | .error e1 => .error e1

/-! ## sync_client.rs : ReadHdfsFile seek and read -/

/-- Signed 64-bit bounds (`i64::MIN`/`i64::MAX`). -/
def I64MIN : Int := -(2 ^ 63)

/-- Signed 64-bit upper bound. -/
def I64MAX : Int := 2 ^ 63 - 1

/-- Rust `i64::checked_add`. -/
def checkedAdd (a b : Int) : Option Int :=
  if I64MIN ≤ a + b ∧ a + b ≤ I64MAX then some (a + b) else none

/-- Rust `as u64` reinterpretation of an `i64` value. -/
def intAsU64 (i : Int) : Nat := (i % (2 ^ 64)).toNat

/-- IO error kinds produced by the file handles. -/
inductive IoErrorKind where
  | invalidInput
  | other
deriving DecidableEq, Repr

/-- A `std::io::Error`: a kind plus its message. -/
structure IoErr where
  kind : IoErrorKind
  msg : String
deriving DecidableEq, Repr

/-- Mirrors `std::io::SeekFrom` (`Start` carries a `u64`, the others `i64`). -/
inductive SeekFrom where
  | Start (o : Nat)
  | Current (d : Int)
  | End (d : Int)
deriving DecidableEq, Repr

/-- Mirrors the `(path, length, position)` bookkeeping of `ReadHdfsFile`
(the client reference is irrelevant to seek/read arithmetic). -/
structure ReadHdfsFile where
  len : Int
  pos : Int
deriving DecidableEq, Repr

/-- Mirrors the inner `offset` helper of `<ReadHdfsFile as Seek>::seek`:
checked add, target before 0 is `InvalidInput`, target within `[0, len]`
moves there, anything else (beyond `len`, or overflow) yields the base
position `pos` unchanged. -/
def seekOffset (pos off len : Int) : Except IoErr Int :=
  match checkedAdd pos off with
  | some p =>
    if p < 0 then .error ⟨.invalidInput, "attempt to seek before start"⟩
    else if p ≤ len then .ok p
    else .ok pos
  | none => .ok pos

/-- Mirrors `<ReadHdfsFile as Seek>::seek`: dispatch on the whence/delta pair,
store the computed position, and return it reinterpreted as `u64`. -/
def ReadHdfsFile.seek (f : ReadHdfsFile) (p : SeekFrom) :
    Except IoErr (ReadHdfsFile × Nat) :=
  let newPos : Except IoErr Int :=
    match p with
    | .Current o => if o = 0 then .ok f.pos else seekOffset f.pos o f.len
    | .Start o =>
      if o = 0 then .ok 0
      else if (o : Int) ≤ I64MAX then seekOffset 0 (o : Int) f.len
      else .error ⟨.invalidInput, "offset too big"⟩
    | .End o => if o = 0 then .ok f.len else seekOffset f.len o f.len
  match newPos with
  | .ok p1 => .ok ({ f with pos := p1 }, intAsU64 p1)
  | .error e => .error e

/-- Loop body of `<ReadHdfsFile as Read>::read`: for each chunk delivered by
the OPEN stream, the stored position advances by the chunk's length, while
`(&mut buf[pos..]).write(&chunk)` copies `min(chunk.len, remaining buffer)`
bytes and advances the write cursor by that amount; at EOF the write cursor
is returned. -/
def readGo (bufLen : Nat) : List (List Nat) → Int → Nat → Int × Nat
  | [], pos, written => (pos, written)
  | c :: cs, pos, written =>
    readGo bufLen cs (pos + (c.length : Int)) (written + min c.length (bufLen - written))

/-- Mirrors `<ReadHdfsFile as Read>::read` applied to the chunk sequence the
server delivers for the issued OPEN request: returns the updated handle and
the byte count reported to the caller. -/
def ReadHdfsFile.read (f : ReadHdfsFile) (bufLen : Nat)
    (chunks : List (List Nat)) : ReadHdfsFile × Nat :=
  let r := readGo bufLen chunks f.pos 0
  ({ f with pos := r.1 }, r.2)

/-! ## Spec-side description of query assembly (for the refinement claim) -/

/-- Join query pieces after the first: each preceded by `&`. -/
def ampJoin : List (List Nat) → List Nat
  | [] => []
  | p :: ps => 38 :: p ++ ampJoin ps

/-- Join query pieces: the first preceded by `?`, the rest by `&`. -/
def querySepJoin : List (List Nat) → List Nat
  | [] => []
  | p :: ps => 63 :: p ++ ampJoin ps

/-- Join query pieces onto a buffer that may already have emitted `?`. -/
def joinFrom (started : Bool) (ps : List (List Nat)) : List Nat :=
  if started then ampJoin ps else querySepJoin ps

/-- Rendered `key=value` piece of a string-valued parameter. -/
def pvPiece (p v : List Nat) : List Nat :=
  uriEncode false p ++ 61 :: uriEncode false v

/-- Rendered `key=value` piece of one operation argument (the payload
encodings declared by the data model: decimal integer, boolean literal,
three-digit octal, comma-joined list). -/
def argPiece : OpArg → List Nat
  | .Offset v => uriEncode false (asciiBytes "offset") ++ 61 :: intDec v
  | .Length v => uriEncode false (asciiBytes "length") ++ 61 :: intDec v
  | .BufferSize v => uriEncode false (asciiBytes "buffersize") ++ 61 :: intDec v
  | .Overwrite v =>
    uriEncode false (asciiBytes "overwrite") ++ 61 :: asciiBytes (if v then "true" else "false")
  | .Blocksize v => uriEncode false (asciiBytes "blocksize") ++ 61 :: intDec v
  | .Replication v => uriEncode false (asciiBytes "replication") ++ 61 :: intDec v
  | .Permission v =>
    uriEncode false (asciiBytes "permission") ++ 61 ::
      (natDec ((v &&& 0o0700) >>> 6) ++ natDec ((v &&& 0o0070) >>> 3) ++ natDec (v &&& 0o0007))
  | .Sources v => pvPiece (asciiBytes "sources") (commaJoin v)
  | .Destination v => pvPiece (asciiBytes "destination") v
  | .CreateParent v =>
    uriEncode false (asciiBytes "createParent") ++ 61 :: asciiBytes (if v then "true" else "false")
  | .Recursive v =>
    uriEncode false (asciiBytes "recursive") ++ 61 :: asciiBytes (if v then "true" else "false")

/-- Pieces contributed by one optional identity parameter. -/
def optPieces (k : List Nat) : Option (List Nat) → List (List Nat)
  | some v => [pvPiece k v]
  | none => []

/-- The query pieces in the order the spec pins: identity parameters
`user.name`, `doas`, `delegation` (each only if set, in this order), then
`op=<NAME>`, then the builder's arguments in the order supplied. -/
def specPieces (c : HdfsClient) (op : Op) (args : List OpArg) : List (List Nat) :=
  optPieces (asciiBytes "user.name") c.user_name ++
  optPieces (asciiBytes "doas") c.doas ++
  optPieces (asciiBytes "delegation") c.dt ++
  [pvPiece (asciiBytes "op") (asciiBytes op.op_string)] ++
  args.map argPiece

/-- The spec's description of the assembled path-and-query: the mount point
`/webhdfs/v1` with the percent-encoded path appended, then the query pieces
joined with `?`/`&`. -/
def pathAndQuerySpec (c : HdfsClient) (file_path : List Nat)
    (op : Op) (args : List OpArg) : List Nat :=
  ((PathEncoder.new SVC_MOUNT_POINT).extend file_path).path_and_query ++
    querySepJoin (specPieces c op args)

/-! ## Lemmas about the query encoder -/

theorem addP_path_and_query (q : QueryEncoder) (piece : List Nat) :
    (q.addP piece).path_and_query =
      q.path_and_query ++ (if q.qm_added then 38 else 63) :: piece := by
  rcases q with ⟨pq, qm⟩
  cases qm <;> simp [QueryEncoder.addP, QueryEncoder.pfx]

theorem addP_qm_added (q : QueryEncoder) (piece : List Nat) :
    (q.addP piece).qm_added = true := by
  rcases q with ⟨pq, qm⟩
  cases qm <;> simp [QueryEncoder.addP, QueryEncoder.pfx]

theorem foldl_addP (ps : List (List Nat)) :
    ∀ q : QueryEncoder,
      (ps.foldl QueryEncoder.addP q).path_and_query =
        q.path_and_query ++ joinFrom q.qm_added ps := by
  induction ps with
  | nil => intro q; cases h : q.qm_added <;> simp [joinFrom, ampJoin, querySepJoin, h]
  | cons p ps ih =>
    intro q
    have h1 := ih (q.addP p)
    simp only [List.foldl_cons, h1, addP_path_and_query, addP_qm_added]
    cases h : q.qm_added <;>
      simp [joinFrom, ampJoin, querySepJoin, h, List.append_assoc]

theorem add_to_url_eq_addP (a : OpArg) (q : QueryEncoder) :
    a.add_to_url q = q.addP (argPiece a) := by
  cases a <;> rfl

theorem fold_args_eq (args : List OpArg) (q : QueryEncoder) :
    args.foldl (fun q s => s.add_to_url q) q =
      (args.map argPiece).foldl QueryEncoder.addP q := by
  rw [List.foldl_map]
  simp only [add_to_url_eq_addP]

/-- The source's query assembly refines the spec's description: mount point,
encoded path, identity parameters in declaration order, `op`, then the
builder arguments in the order supplied, joined with `?` and `&`. -/
theorem path_and_query_eq_spec (c : HdfsClient) (file_path : List Nat)
    (op : Op) (args : List OpArg) :
    c.path_and_query file_path op args = pathAndQuerySpec c file_path op args := by
  unfold HdfsClient.path_and_query pathAndQuerySpec specPieces
  rcases c with ⟨e, ae, u, d, t⟩
  cases u <;> cases d <;> cases t <;>
    simp [fold_args_eq, foldl_addP, addP_path_and_query, addP_qm_added,
      QueryEncoder.add_pv, QueryEncoder.result, PathEncoder.query, optPieces,
      pvPiece, joinFrom, ampJoin, querySepJoin, List.append_assoc]

/-! ## Lemmas: percent-encoding round trip -/

theorem urlDecode_cons_ne {b : Nat} (h : b ≠ 37) (l : List Nat) :
    urlDecode (b :: l) = b :: urlDecode l := by
  rcases l with _ | ⟨x, _ | ⟨y, rest⟩⟩ <;> simp [urlDecode, h]

theorem hexVal_hex_from_digit : ∀ d < 16, hexVal (hex_from_digit d) = d := by decide

theorem is_unreserved_37 : is_unreserved 37 = false := by decide

theorem and_fifteen_lt (x : Nat) : x &&& 15 < 16 :=
  Nat.lt_succ_of_le (Nat.and_le_right)

theorem hex_pair_val (b : Nat) (hb : b < 256) :
    hexVal (hex_from_digit ((b >>> 4) &&& 15)) * 16 +
      hexVal (hex_from_digit (b &&& 15)) = b := by
  rw [hexVal_hex_from_digit _ (and_fifteen_lt _), hexVal_hex_from_digit _ (and_fifteen_lt _)]
  have h15 : (15 : Nat) = 2 ^ 4 - 1 := rfl
  rw [h15, Nat.and_pow_two_sub_one_eq_mod, Nat.and_pow_two_sub_one_eq_mod,
    Nat.shiftRight_eq_div_pow]
  have h4 : (2 : Nat) ^ 4 = 16 := rfl
  rw [h4]
  omega

theorem uriEncode_roundtrip (ω : Bool) :
    ∀ s : List Nat, (∀ b ∈ s, b < 256) → urlDecode (uriEncode ω s) = s := by
  intro s
  induction s with
  | nil => intro _; rfl
  | cons b rest ih =>
    intro h
    have hb : b < 256 := h b (List.mem_cons_self _ _)
    have hrest : ∀ x ∈ rest, x < 256 := fun x hx => h x (List.mem_cons_of_mem _ hx)
    rw [uriEncode]
    by_cases hraw : (!is_unreserved b && !(b == 47 && ω)) = true
    · rw [if_pos hraw]
      rw [urlDecode, hex_pair_val b hb, ih hrest]
    · rw [if_neg hraw]
      have hb37 : b ≠ 37 := by
        intro hcontra
        subst hcontra
        simp [is_unreserved_37] at hraw
      rw [urlDecode_cons_ne hb37, ih hrest]

/-! ## Lemmas: octal permission rendering -/

theorem natDec_single : ∀ x < 10, natDec x = [48 + x] := by decide

theorem octal_component_le (v m : Nat) (k : Nat) (hm : m / 2 ^ k ≤ 7) :
    (v &&& m) >>> k ≤ 7 := by
  rw [Nat.shiftRight_eq_div_pow]
  exact le_trans (Nat.div_le_div_right Nat.and_le_right) hm

theorem and_511_component (v m : Nat) (hm : 511 &&& m = m) :
    (v &&& 511) &&& m = v &&& m := by
  rw [Nat.and_assoc, hm]

/-! ## Lemmas: read loop -/

theorem readGo_spec (bufLen : Nat) :
    ∀ (cs : List (List Nat)) (pos : Int) (w : Nat), w ≤ bufLen →
      readGo bufLen cs pos w =
        (pos + ((cs.map List.length).sum : Int),
         min bufLen (w + (cs.map List.length).sum)) := by
  intro cs
  induction cs with
  | nil =>
    intro pos w hw
    simp [readGo, Nat.min_eq_right hw]
  | cons c cs ih =>
    intro pos w hw
    rw [readGo, ih _ _ (by omega)]
    simp only [List.map_cons, List.sum_cons, Prod.mk.injEq]
    constructor
    · push_cast
      ring
    · omega

/-! ## Lemmas: seek arithmetic -/

theorem intAsU64_of_nonneg (i : Int) (h0 : 0 ≤ i) (h1 : i < 2 ^ 64) :
    intAsU64 i = i.toNat := by
  unfold intAsU64
  rw [Int.emod_eq_of_lt h0 h1]

theorem intAsU64_coe_nat (x : Nat) (h : (x : Int) < 2 ^ 64) :
    intAsU64 (x : Int) = x := by
  rw [intAsU64_of_nonneg _ (Int.natCast_nonneg x) h, Int.toNat_natCast]

theorem seekOffset_in_range (pos off len : Int)
    (hlo : I64MIN ≤ pos + off) (hhi : pos + off ≤ I64MAX)
    (h0 : 0 ≤ pos + off) (hlen : pos + off ≤ len) :
    seekOffset pos off len = .ok (pos + off) := by
  unfold seekOffset checkedAdd
  rw [if_pos ⟨hlo, hhi⟩]
  simp only
  rw [if_neg (by omega), if_pos hlen]

theorem seekOffset_before_start (pos off len : Int)
    (hlo : I64MIN ≤ pos + off) (hhi : pos + off ≤ I64MAX)
    (hneg : pos + off < 0) :
    seekOffset pos off len = .error ⟨.invalidInput, "attempt to seek before start"⟩ := by
  unfold seekOffset checkedAdd
  rw [if_pos ⟨hlo, hhi⟩]
  simp only
  rw [if_pos hneg]

theorem seekOffset_beyond (pos off len : Int)
    (hlo : I64MIN ≤ pos + off) (hhi : pos + off ≤ I64MAX)
    (h0 : 0 ≤ pos + off) (hb : len < pos + off) :
    seekOffset pos off len = .ok pos := by
  unfold seekOffset checkedAdd
  rw [if_pos ⟨hlo, hhi⟩]
  simp only
  rw [if_neg (by omega), if_neg (by omega)]

/-! ## Lemmas: failover driver -/

theorem runWithFailover_ok (c : HdfsClient) (s : FOState)
    (attempt : FOState → Except Error T) (v : T) (h : attempt s = .ok v) :
    runWithFailover c s attempt = (.ok v, s, [c.ep s]) := by
  simp [runWithFailover, failover_fsm, h]

theorem runWithFailover_standby (c : HdfsClient) (s : FOState)
    (attempt : FOState → Except Error T) (e : Error) (h : attempt s = .error e)
    (hsb : is_standby_error e = true) (halt : c.alt_entrypoint.isSome = true) :
    runWithFailover c s attempt = (attempt s.next, s.next, [c.ep s, c.ep s.next]) := by
  simp [runWithFailover, failover_fsm, h, hsb, halt]

theorem runWithFailover_err (c : HdfsClient) (s : FOState)
    (attempt : FOState → Except Error T) (e : Error) (h : attempt s = .error e)
    (hno : (c.alt_entrypoint.isSome && is_standby_error e) = false) :
    runWithFailover c s attempt = (.error e, s, [c.ep s]) := by
  simp [runWithFailover, failover_fsm, h, hno]

theorem opsStep_no_alt (c : HdfsClient) (halt : c.alt_entrypoint = none)
    (s : FOState) (a : FOState → Except Error Unit) : opsStep c s a = s := by
  unfold opsStep
  cases h : a s with
  | ok v => rw [runWithFailover_ok c s a v h]
  | error e =>
    rw [runWithFailover_err c s a e h (by rw [halt]; rfl)]

theorem runOps_no_alt (c : HdfsClient) (halt : c.alt_entrypoint = none) :
    ∀ (ops : List (FOState → Except Error Unit)) (s : FOState),
      runOps c s ops = s := by
  intro ops
  induction ops with
  | nil => intro s; rfl
  | cons a rest ih =>
    intro s
    rw [runOps, opsStep_no_alt c halt, ih]

/-! ## Claim theorems -/

/-- C6: for every client configuration and operation the assembled
path-and-query is `/webhdfs/v1` plus the percent-encoded path, then
`user.name`, `doas`, `delegation` (each only if set, in this order), then
`op=<NAME>`, then the builder's arguments in the order supplied; and for
entrypoint `http://nn:50070`, user `dr.who`, path `/x/КиР`, op `LISTSTATUS`,
the request URL is exactly
`http://nn:50070/webhdfs/v1/x/%D0%9A%D0%B8%D0%A0?user.name=dr.who&op=LISTSTATUS`. -/
theorem query_assembly_spec :
    (∀ (c : HdfsClient) (file_path : List Nat) (op : Op) (args : List OpArg),
      c.path_and_query file_path op args = pathAndQuerySpec c file_path op args) ∧
    HdfsClient.requestUrl
      { entrypoint := "http://nn:50070", user_name := some (asciiBytes "dr.who") }
      (asciiBytes "/x/" ++ [0xD0, 0x9A, 0xD0, 0xB8, 0xD0, 0xA0]) .LISTSTATUS []
      = asciiBytes
        "http://nn:50070/webhdfs/v1/x/%D0%9A%D0%B8%D0%A0?user.name=dr.who&op=LISTSTATUS" :=
  ⟨path_and_query_eq_spec, by decide⟩

/-- C7: for every byte string, percent-encoding in path mode (slash
preserved) followed by URL-decoding is the identity, and the same round trip
holds in query mode (slash escaped). -/
theorem percent_encoding_roundtrip :
    ∀ s : List Nat, (∀ b ∈ s, b < 256) →
      urlDecode (uriEncode true s) = s ∧ urlDecode (uriEncode false s) = s :=
  fun s h => ⟨uriEncode_roundtrip true s h, uriEncode_roundtrip false s h⟩

/-- Witness for the round trip at the UTF-8 bytes of `user/a/b:$КиР&`. -/
theorem percent_encoding_roundtrip_witness :
    urlDecode (uriEncode true
      (asciiBytes "user/a/b:$" ++ [0xD0, 0x9A, 0xD0, 0xB8, 0xD0, 0xA0, 38])) =
      asciiBytes "user/a/b:$" ++ [0xD0, 0x9A, 0xD0, 0xB8, 0xD0, 0xA0, 38] ∧
    urlDecode (uriEncode false
      (asciiBytes "user/a/b:$" ++ [0xD0, 0x9A, 0xD0, 0xB8, 0xD0, 0xA0, 38])) =
      asciiBytes "user/a/b:$" ++ [0xD0, 0x9A, 0xD0, 0xB8, 0xD0, 0xA0, 38] :=
  percent_encoding_roundtrip _ (by decide)

/-- C9: the octal query setter appends exactly three octal-digit characters
(each in `'0'..'7'`) determined solely by the lowest nine bits of the `u16`
value — the rendering of `v` equals the rendering of `v & 0o777`; in
particular `0o755` renders `755`, `0o007` renders `007`, and `0o1755` also
renders `755`. -/
theorem permission_octal_rendering :
    (∀ v : Nat, v < 2 ^ 16 → ∀ (q : QueryEncoder) (p : List Nat),
      (q.add_po p v).path_and_query = (q.add_po p (v &&& 0o777)).path_and_query ∧
      (q.add_po p v).path_and_query =
        q.path_and_query ++ (if q.qm_added then 38 else 63) ::
          (uriEncode false p ++ 61 ::
            [48 + ((v &&& 0o0700) >>> 6), 48 + ((v &&& 0o0070) >>> 3),
             48 + (v &&& 0o0007)]) ∧
      48 + ((v &&& 0o0700) >>> 6) ≤ 55 ∧
      48 + ((v &&& 0o0070) >>> 3) ≤ 55 ∧
      48 + (v &&& 0o0007) ≤ 55) ∧
    ((QueryEncoder.mk [] true).add_po (asciiBytes "permission") 0o755).path_and_query
      = asciiBytes "&permission=755" ∧
    ((QueryEncoder.mk [] true).add_po (asciiBytes "permission") 0o007).path_and_query
      = asciiBytes "&permission=007" ∧
    ((QueryEncoder.mk [] true).add_po (asciiBytes "permission") 0o1755).path_and_query
      = asciiBytes "&permission=755" := by
  refine ⟨?_, by decide, by decide, by decide⟩
  intro v _ q p
  have h1 : (v &&& 0o777) &&& 0o0700 = v &&& 0o0700 := and_511_component v _ (by decide)
  have h2 : (v &&& 0o777) &&& 0o0070 = v &&& 0o0070 := and_511_component v _ (by decide)
  have h3 : (v &&& 0o777) &&& 0o0007 = v &&& 0o0007 := and_511_component v _ (by decide)
  have hb1 : (v &&& 0o0700) >>> 6 ≤ 7 := octal_component_le v _ 6 (by decide)
  have hb2 : (v &&& 0o0070) >>> 3 ≤ 7 := octal_component_le v _ 3 (by decide)
  have hb3 : v &&& 0o0007 ≤ 7 := Nat.and_le_right
  refine ⟨?_, ?_, by omega, by omega, by omega⟩
  · simp only [QueryEncoder.add_po, h1, h2, h3]
  · have hz3 : v &&& 0o0007 = (v &&& 0o0007) >>> 0 := rfl
    simp only [QueryEncoder.add_po, addP_path_and_query,
      natDec_single _ (by omega : (v &&& 0o0700) >>> 6 < 10),
      natDec_single _ (by omega : (v &&& 0o0070) >>> 3 < 10),
      natDec_single _ (by omega : v &&& 0o0007 < 10)]
    simp [List.append_assoc]

/-- Witness for the octal rendering at the out-of-range value `0o1755`. -/
theorem permission_octal_rendering_witness :
    (0o1755 : Nat) < 2 ^ 16 ∧
    ((QueryEncoder.mk [] true).add_po (asciiBytes "permission") 0o1755).path_and_query
      = ((QueryEncoder.mk [] true).add_po (asciiBytes "permission")
          (0o1755 &&& 0o777)).path_and_query :=
  ⟨by decide,
   (permission_octal_rendering.1 0o1755 (by decide) (QueryEncoder.mk [] true)
     (asciiBytes "permission")).1⟩

/-- C10: for every chunk sequence delivered by the OPEN stream, `read`
returns the number of bytes copied into the caller's buffer (at most the
buffer length) while the stored position advances by the total byte length
of all chunks received; when the server delivers more bytes than the buffer
holds, the position advances by strictly more than the returned count. -/
theorem read_position_advance :
    ∀ (f : ReadHdfsFile) (bufLen : Nat) (chunks : List (List Nat)),
      (f.read bufLen chunks).2 = min bufLen (chunks.map List.length).sum ∧
      (f.read bufLen chunks).1.pos = f.pos + ((chunks.map List.length).sum : Int) ∧
      (f.read bufLen chunks).2 ≤ bufLen ∧
      (bufLen < (chunks.map List.length).sum →
        ((f.read bufLen chunks).2 : Int) < (f.read bufLen chunks).1.pos - f.pos) := by
  intro f bufLen chunks
  have h := readGo_spec bufLen chunks f.pos 0 (Nat.zero_le _)
  unfold ReadHdfsFile.read
  rw [h]
  refine ⟨by simp, by simp, by simp, ?_⟩
  intro hlt
  simp only
  have hmin : min bufLen (0 + (chunks.map List.length).sum) = bufLen := by omega
  rw [hmin]
  have harith : f.pos + ((chunks.map List.length).sum : Int) - f.pos
      = ((chunks.map List.length).sum : Int) := by ring
  rw [harith]
  exact_mod_cast hlt

/-- Witness for the read bookkeeping: buffer of 4 bytes, chunks of total
length 6 — the caller is told 4, the position advances by 6. -/
theorem read_position_advance_witness :
    ((ReadHdfsFile.mk 100 10).read 4 [[1, 2, 3], [4, 5, 6]]).2 = 4 ∧
    ((ReadHdfsFile.mk 100 10).read 4 [[1, 2, 3], [4, 5, 6]]).1.pos = 16 := by
  have h := read_position_advance (ReadHdfsFile.mk 100 10) 4 [[1, 2, 3], [4, 5, 6]]
  exact ⟨by rw [h.1]; decide, by rw [h.2.1]; decide⟩

/-- C4 counterexample: with length 1000 and position 1, `seek(Current, i64::MAX)`
makes `position + d` overflow a signed 64-bit integer, yet the call succeeds
(returning the unchanged position) instead of failing with `InvalidInput`. -/
theorem seek_current_overflow_counterexample :
    (ReadHdfsFile.mk 1000 1).seek (.Current (2 ^ 63 - 1)) =
      .ok (ReadHdfsFile.mk 1000 1, 1) ∧
    I64MAX < 1 + (2 ^ 63 - 1 : Int) := by
  constructor
  · decide
  · rw [I64MAX]; omega

/-- C4 amended: for every `ReadHdfsFile` (position a valid `i64`, at least 0)
and every delta `d` such that `position + d` overflows a signed 64-bit
integer, `seek(Current, d)` succeeds, leaves the position unchanged, and
returns the old position. -/
theorem seek_current_overflow_spec :
    ∀ (f : ReadHdfsFile) (d : Int),
      0 ≤ f.pos → f.pos ≤ I64MAX → I64MAX < f.pos + d →
      f.seek (.Current d) = .ok (f, intAsU64 f.pos) := by
  intro f d h0 h1 h2
  have hd : d ≠ 0 := by intro h; rw [h] at h2; omega
  have hco : checkedAdd f.pos d = none := by
    unfold checkedAdd
    rw [if_neg]
    intro ⟨_, hb⟩
    omega
  unfold ReadHdfsFile.seek
  simp only [if_neg hd]
  unfold seekOffset
  rw [hco]

/-- Witness for the overflow behavior at position 1, delta `i64::MAX`. -/
theorem seek_current_overflow_spec_witness :
    (0 : Int) ≤ 1 ∧ (1 : Int) ≤ I64MAX ∧ I64MAX < 1 + (2 ^ 63 - 1 : Int) ∧
    (ReadHdfsFile.mk 1000 1).seek (.Current (2 ^ 63 - 1)) =
      .ok (ReadHdfsFile.mk 1000 1, intAsU64 1) :=
  ⟨by decide, by rw [I64MAX]; omega, by rw [I64MAX]; omega,
   seek_current_overflow_spec (ReadHdfsFile.mk 1000 1) (2 ^ 63 - 1)
     (by decide)
     (by show (1 : Int) ≤ I64MAX; rw [I64MAX]; omega)
     (by show I64MAX < 1 + (2 ^ 63 - 1 : Int); rw [I64MAX]; omega)⟩

/-- C5 counterexample: file of length 10, position 5: `seek(Start, 11)` —
target beyond the end — does not leave the position unchanged: it resets the
position to 0 and returns 0. -/
theorem seek_start_beyond_len_counterexample :
    (ReadHdfsFile.mk 10 5).seek (.Start 11) = .ok (ReadHdfsFile.mk 10 0, 0) ∧
    (0 : Int) ≠ 5 := by
  constructor
  · decide
  · decide

/-- C5 amended: for every `ReadHdfsFile` over a file of length `L` with
position in `[0, L]` (and `L` a valid `i64`): `seek(Start, x)` with
`0 ≤ x ≤ L` sets the position to `x` and returns `x`; `seek(End, 0)` sets the
position to `L`; any seek whose target is before 0 fails with `InvalidInput`;
and `seek(Start, o)` with `L < o ≤ i64::MAX` sets the position to 0 and
returns 0 (rather than leaving it unchanged). -/
theorem seek_bounds_spec :
    ∀ f : ReadHdfsFile, 0 ≤ f.pos → f.pos ≤ f.len → f.len ≤ I64MAX →
      (∀ x : Nat, (x : Int) ≤ f.len →
        f.seek (.Start x) = .ok (ReadHdfsFile.mk f.len x, x)) ∧
      f.seek (.End 0) = .ok (ReadHdfsFile.mk f.len f.len, f.len.toNat) ∧
      (∀ d : Int, I64MIN ≤ d → f.pos + d < 0 →
        f.seek (.Current d) = .error ⟨.invalidInput, "attempt to seek before start"⟩) ∧
      (∀ d : Int, I64MIN ≤ d → f.len + d < 0 →
        f.seek (.End d) = .error ⟨.invalidInput, "attempt to seek before start"⟩) ∧
      (∀ o : Nat, f.len < (o : Int) → (o : Int) ≤ I64MAX →
        f.seek (.Start o) = .ok (ReadHdfsFile.mk f.len 0, 0)) := by
  intro f h0 h1 h2
  have hMM : I64MIN < 0 ∧ (0 : Int) < I64MAX ∧ I64MAX < 2 ^ 64 := by
    rw [I64MIN, I64MAX]; omega
  refine ⟨?_, ?_, ?_, ?_, ?_⟩
  · intro x hx
    by_cases hx0 : x = 0
    · subst hx0
      rfl
    · have hxpos : (0 : Int) ≤ (x : Int) := Int.natCast_nonneg x
      unfold ReadHdfsFile.seek
      simp only [if_neg hx0, if_pos (by omega : (x : Int) ≤ I64MAX)]
      rw [seekOffset_in_range 0 x f.len (by omega) (by omega) (by omega) (by omega)]
      simp only [zero_add]
      rw [intAsU64_coe_nat x (by omega)]
  · have hstep : f.seek (.End 0) = .ok (ReadHdfsFile.mk f.len f.len, intAsU64 f.len) := rfl
    rw [hstep, intAsU64_of_nonneg f.len (by omega) (by omega)]
  · intro d hd hneg
    have hd0 : d ≠ 0 := by intro h; rw [h] at hneg; omega
    unfold ReadHdfsFile.seek
    simp only [if_neg hd0]
    rw [seekOffset_before_start f.pos d f.len (by omega) (by omega) (by omega)]
  · intro d hd hneg
    have hd0 : d ≠ 0 := by intro h; rw [h] at hneg; omega
    unfold ReadHdfsFile.seek
    simp only [if_neg hd0]
    rw [seekOffset_before_start f.len d f.len (by omega) (by omega) (by omega)]
  · intro o hlt hle
    have ho0 : o ≠ 0 := by
      intro h; subst h; simp at hlt; omega
    unfold ReadHdfsFile.seek
    simp only [if_neg ho0, if_pos hle]
    have hopos : (0 : Int) ≤ (o : Int) := Int.natCast_nonneg o
    rw [seekOffset_beyond 0 o f.len (by omega) (by omega) (by omega) (by omega)]
    rfl

/-- Witness for the seek bounds at a file of length 10, position 5. -/
theorem seek_bounds_spec_witness :
    (ReadHdfsFile.mk 10 5).seek (.Start 7) = .ok (ReadHdfsFile.mk 10 7, 7) ∧
    (ReadHdfsFile.mk 10 5).seek (.End 0) = .ok (ReadHdfsFile.mk 10 10, 10) ∧
    (ReadHdfsFile.mk 10 5).seek (.Current (-6)) =
      .error ⟨.invalidInput, "attempt to seek before start"⟩ := by
  have h := seek_bounds_spec (ReadHdfsFile.mk 10 5)
    (by decide) (by decide) (by show (10 : Int) ≤ I64MAX; rw [I64MAX]; omega)
  refine ⟨?_, ?_, ?_⟩
  · have := h.1 7 (by decide)
    simpa using this
  · simpa using h.2.1
  · exact h.2.2.1 (-6) (by rw [I64MIN]; omega) (by decide)

/-- The standby remote exception as WebHDFS returns it. -/
def stbErr : Error :=
  ⟨none, .remoteException "StandbyException" "org.apache.hadoop.ipc.StandbyException"
    "Operation category WRITE is not supported in state standby"⟩

/-- Two-node client used by the failover witnesses. -/
def cHA : HdfsClient :=
  { entrypoint := "http://nn1:50070", alt_entrypoint := some "http://nn2:50070" }

/-- Attempt function whose primary node answers with the standby exception
and whose alternate node succeeds. -/
def attemptHA : FOState → Except Error Unit
  | .PRIMARY => .error stbErr
  | .ALT => .ok ()

/-- C2: for every client operation started in either failover state — if the
attempt fails with a `StandbyException` and `alt_entrypoint` is configured,
the state flips and the same request is retried exactly once, its outcome
returned verbatim (so never a second retry); any other failure is returned
as-is after a single request; a success is returned after a single request
with the current state memoized, so the next operation issues exactly one
request, to the entrypoint that last served. -/
theorem failover_driver_spec :
    ∀ (T : Type) (c : HdfsClient) (s : FOState) (attempt : FOState → Except Error T),
      (∀ e : Error, attempt s = .error e → is_standby_error e = true →
        c.alt_entrypoint.isSome = true →
        runWithFailover c s attempt = (attempt s.next, s.next, [c.ep s, c.ep s.next])) ∧
      (∀ e : Error, attempt s = .error e →
        (is_standby_error e = false ∨ c.alt_entrypoint = none) →
        runWithFailover c s attempt = (.error e, s, [c.ep s])) ∧
      (∀ v : T, attempt s = .ok v →
        runWithFailover c s attempt = (.ok v, s, [c.ep s])) ∧
      (∀ (v w : T) (attempt2 : FOState → Except Error T),
        (runWithFailover c s attempt).1 = .ok v →
        attempt2 (runWithFailover c s attempt).2.1 = .ok w →
        runWithFailover c (runWithFailover c s attempt).2.1 attempt2 =
          (.ok w, (runWithFailover c s attempt).2.1,
           [c.ep (runWithFailover c s attempt).2.1])) := by
  intro T c s attempt
  refine ⟨?_, ?_, ?_, ?_⟩
  · intro e h hsb halt
    exact runWithFailover_standby c s attempt e h hsb halt
  · intro e h hno
    refine runWithFailover_err c s attempt e h ?_
    rcases hno with hno | hno
    · rw [hno, Bool.and_false]
    · rw [hno]; rfl
  · intro v h
    exact runWithFailover_ok c s attempt v h
  · intro v w attempt2 _ h2
    exact runWithFailover_ok c _ attempt2 w h2

/-- Witness for the failover driver: from PRIMARY, a standby failure on nn1
triggers exactly one retry on nn2, which serves the request; the memoized
state is ALT, and a following successful operation issues one request to
nn2. -/
theorem failover_driver_spec_witness :
    runWithFailover cHA .PRIMARY attemptHA =
      (.ok (), .ALT, ["http://nn1:50070", "http://nn2:50070"]) ∧
    runWithFailover cHA .ALT attemptHA = (.ok (), .ALT, ["http://nn2:50070"]) := by
  constructor
  · have h := (failover_driver_spec Unit cHA .PRIMARY attemptHA).1 stbErr rfl
      (by decide) rfl
    rw [h]; decide
  · have h := (failover_driver_spec Unit cHA .ALT attemptHA).2.2.1 () rfl
    rw [h]; decide

/-- C3: whenever a data operation (`create`/`append`) fails with a
`StandbyException` and `alt_entrypoint` is configured, the engine packages
the failure as `ErrorD { error, data_opt = Some(payload) }`, the driver flips
the state and resubmits the recovered payload, and the retry's request body
is byte-identical to the originally supplied payload. -/
theorem failover_body_preservation :
    ∀ (c : HdfsClient) (s : FOState) (net : FOState → Data → Except Error Unit)
      (data : Data) (e : Error),
      c.alt_entrypoint.isSome = true →
      net s data = .error e →
      is_standby_error e = true →
      postBinaryEngine net s data = .error ⟨e, some data⟩ ∧
      (runDataOp c s (postBinaryEngine net) data).2.2 =
        [(c.ep s, data), (c.ep s.next, data)] ∧
      (runDataOp c s (postBinaryEngine net) data).1 =
        postBinaryEngine net s.next data ∧
      (runDataOp c s (postBinaryEngine net) data).2.1 = s.next := by
  intro c s net data e halt hnet hsb
  have hpb : postBinaryEngine net s data = .error ⟨e, some data⟩ := by
    simp [postBinaryEngine, hnet]
  refine ⟨hpb, ?_, ?_, ?_⟩ <;>
    simp [runDataOp, failover_fsm_d, hpb, halt, hsb]

/-- Network function for the body-preservation witness: nn1 is standing by,
nn2 accepts the write. -/
def netHA : FOState → Data → Except Error Unit
  | .PRIMARY, _ => .error stbErr
  | .ALT, _ => .ok ()

/-- Witness for body preservation: the payload `ABC` failed over from nn1 is
resubmitted to nn2 byte-identically. -/
theorem failover_body_preservation_witness :
    (runDataOp cHA .PRIMARY (postBinaryEngine netHA) [65, 66, 67]).2.2 =
      [("http://nn1:50070", [65, 66, 67]), ("http://nn2:50070", [65, 66, 67])] := by
  have h := (failover_body_preservation cHA .PRIMARY netHA [65, 66, 67] stbErr
    rfl rfl (by decide)).2.1
  rw [h]; decide

/-- C8: the memoized failover state never names an entrypoint that is not
configured: a fresh sync client starts in PRIMARY, a client built without
`alt_entrypoint` is still in PRIMARY after any sequence of operations, and
the state can be ALT only when `alt_entrypoint` is configured. -/
theorem failover_state_invariant :
    ∀ (c : HdfsClient) (ops : List (FOState → Except Error Unit)),
      (syncBuild c).2 = .PRIMARY ∧
      (c.alt_entrypoint = none → runOps c .PRIMARY ops = .PRIMARY) ∧
      (runOps c .PRIMARY ops = .ALT → c.alt_entrypoint.isSome = true) := by
  intro c ops
  refine ⟨rfl, fun halt => runOps_no_alt c halt ops .PRIMARY, ?_⟩
  intro hALT
  cases halt : c.alt_entrypoint with
  | none =>
    rw [runOps_no_alt c halt ops .PRIMARY] at hALT
    exact absurd hALT (by decide)
  | some e => rfl

/-- Witness for the state invariant: a client without `alt_entrypoint` stays
in PRIMARY across a failing and a succeeding operation. -/
theorem failover_state_invariant_witness :
    runOps { entrypoint := "http://nn1:50070" } .PRIMARY
      [fun _ => .error stbErr, fun _ => .ok ()] = .PRIMARY :=
  (failover_state_invariant { entrypoint := "http://nn1:50070" }
    [fun _ => .error stbErr, fun _ => .ok ()]).2.1 rfl

/-- C1 counterexample: a first-phase 201 response (a 2xx, not a redirect) is
returned by the redirect driver as the operation's success, not rejected as
an error: the claim that any non-3xx first-phase response yields an error is
false. -/
theorem request_with_redirect_accepts_2xx_counterexample :
    request_with_redirect (fun u => .ok u) (fun u => .ok u)
      "http://nn:50070/webhdfs/v1/f?op=CREATE"
      (fun _ => .ok ⟨201, none, []⟩) (fun _ => .ok ⟨200, none, [1]⟩) =
      .ok ⟨201, none, []⟩ ∧
    statusIsRedirection 201 = false :=
  ⟨by decide, by decide⟩

/-- C1 amended: in the first phase of a two-phase operation, a 3xx response
is turned by `redirect_filter` into an `HttpRedirect(status, location)` error
— never a phase-1 success — and drives the second phase against the parsed,
NAT-translated location; a 3xx without `Location` is an error; but any
non-3xx first-phase response (including a 2xx) is passed through as the
driver's result, so a 2xx is accepted as the operation's success. -/
theorem request_with_redirect_first_phase_spec :
    ∀ (parseLoc translate : String → Except Error String) (uri : String)
      (rf0 rf1 : String → Except Error HttpResponse) (res : HttpResponse),
      rf0 uri = .ok res →
      (statusIsRedirection res.status = false →
        request_with_redirect parseLoc translate uri rf0 rf1 = .ok res) ∧
      (∀ loc : String, statusIsRedirection res.status = true →
        res.location = some loc →
        redirect_filter res = .error (Error.from_http_redirect res.status loc)) ∧
      (∀ loc uri1 uri2 : String, statusIsRedirection res.status = true →
        res.location = some loc → parseLoc loc = .ok uri1 →
        translate uri1 = .ok uri2 →
        request_with_redirect parseLoc translate uri rf0 rf1 = rf1 uri2) ∧
      (statusIsRedirection res.status = true → res.location = none →
        request_with_redirect parseLoc translate uri rf0 rf1 =
          .error (Error.app_c "Redirect without Location header")) := by
  intro parseLoc translate uri rf0 rf1 res h0
  refine ⟨?_, ?_, ?_, ?_⟩
  · intro hred
    simp [request_with_redirect, redirect_filter, h0, hred]
  · intro loc hred hloc
    simp [redirect_filter, hred, hloc]
  · intro loc uri1 uri2 hred hloc hparse htrans
    simp [request_with_redirect, redirect_filter, h0, hred, hloc,
      Error.from_http_redirect, Error.to_http_redirect, hparse, htrans]
  · intro hred hloc
    simp [request_with_redirect, redirect_filter, h0, hred, hloc,
      Error.app_c, Error.to_http_redirect]

/-- Witness for the redirect driver: a 307 with a `Location` routes the
second phase to the parsed, translated location. -/
theorem request_with_redirect_first_phase_spec_witness :
    request_with_redirect (fun u => .ok u) (fun u => .ok u) "http://nn:50070/x"
      (fun _ => .ok ⟨307, some "http://dn:1006/x", []⟩)
      (fun u => .ok ⟨200, some u, []⟩) =
      .ok ⟨200, some "http://dn:1006/x", []⟩ := by
  have h := (request_with_redirect_first_phase_spec (fun u => .ok u) (fun u => .ok u)
    "http://nn:50070/x" (fun _ => .ok ⟨307, some "http://dn:1006/x", []⟩)
    (fun u => .ok ⟨200, some u, []⟩) ⟨307, some "http://dn:1006/x", []⟩ rfl).2.2.1
    "http://dn:1006/x" "http://dn:1006/x" "http://dn:1006/x" (by decide) rfl rfl rfl
  rw [h]

end WebHdfs




